import Mathlib

/-!
Shallow embedding of the order-lifecycle core of `grab_app.py`: cart
operations, checkout with ID allocation, order claiming, rating
submission and aggregation, persistence load, and average display.
Python dicts with string keys are modelled as association lists kept in
insertion order (new keys append at the end, as CPython dicts preserve
insertion order); order IDs are modelled by the natural number whose
decimal numeral is the dict key, since every key is produced by
`str(int)`.  Prices and money are modelled as rationals.
-/

namespace GrabApp

/-- One cart line, as built by the Add-to-Cart handler
(`grab_app.py` lines 209-212): restaurant, category, food, unit price
and quantity. -/
structure CartLine where
  restaurant : String
  category : String
  food : String
  price : ℚ
  quantity : ℕ
  deriving Repr, DecidableEq

abbrev Cart := List CartLine

/-- `addItem` from the Add-to-Cart handler (`grab_app.py` lines 201-213):
scan the cart for the first line with the same food and restaurant and
increment its quantity; if none matches, append a new line with
quantity 1. -/
def addItem : Cart → String → String → String → ℚ → Cart
  | [], restaurant, category, food, price =>
      [⟨restaurant, category, food, price, 1⟩]
  | item :: rest, restaurant, category, food, price =>
      if item.food = food ∧ item.restaurant = restaurant then
        { item with quantity := item.quantity + 1 } :: rest
      else
        item :: addItem rest restaurant category food price

/-- An Add-to-Cart request: the four arguments of one `addItem` call. -/
structure AddReq where
  restaurant : String
  category : String
  food : String
  price : ℚ
  deriving Repr, DecidableEq

/-- Replay a sequence of Add-to-Cart clicks starting from the empty cart. -/
def applyAdds (reqs : List AddReq) : Cart :=
  reqs.foldl (fun c r => addItem c r.restaurant r.category r.food r.price) []

/-- The identity key of a cart line: the (restaurant, food) pair. -/
def lineKey (l : CartLine) : String × String :=
  (l.restaurant, l.food)

/-- The identity key of an Add-to-Cart request. -/
def reqKey (r : AddReq) : String × String :=
  (r.restaurant, r.food)

/-- Number of cart lines whose key is `p`. -/
def keyCount (cart : Cart) (p : String × String) : ℕ :=
  cart.countP (fun l => lineKey l = p)

/-- Total quantity carried by the cart lines whose key is `p`. -/
def keyQty (cart : Cart) (p : String × String) : ℕ :=
  ((cart.filter (fun l => lineKey l = p)).map (fun l => l.quantity)).sum

/-- The totals block of the cart display (`grab_app.py` lines 217-243). -/
structure Totals where
  subtotal : ℚ
  serviceTax : ℚ
  deliveryCharge : ℚ
  total : ℚ
  deriving Repr, DecidableEq

/-- `computeTotals` from the cart display (`grab_app.py` lines 217-243):
the loop accumulates `subtotal += price * quantity` over the cart lines,
then `service_tax = subtotal * 0.10`, `delivery_charge = subtotal * 0.06`,
`total = subtotal + service_tax + delivery_charge`.  It reads the cart
and returns the four numbers; it never writes the cart. -/
def computeTotals (cart : Cart) : Totals :=
  let subtotal := cart.foldl (fun s item => s + item.price * (item.quantity : ℚ)) 0
  let serviceTax := subtotal * (10 / 100)
  let deliveryCharge := subtotal * (6 / 100)
  { subtotal := subtotal
    serviceTax := serviceTax
    deliveryCharge := deliveryCharge
    total := subtotal + serviceTax + deliveryCharge }

/-- One stored order (`grab_app.py` lines 276-284).  Status is one of the
literal strings "pending", "claimed", "completed"; `driver` is `None`
until claimed; the three rating fields are `None` until rated. -/
structure Order where
  customer : String
  phone : String
  restaurant : String
  category : String
  food : String
  price : ℚ
  quantity : ℕ
  dropoff : String
  payment : String
  tip : ℚ
  status : String
  driver : Option String
  rating_food : Option ℕ
  rating_speed : Option ℕ
  rating_service : Option ℕ
  deriving Repr, DecidableEq

/-- The orders dict: keys are decimal numerals of positive integers,
modelled by their numeric value; entries in insertion order. -/
abbrev Store := List (ℕ × Order)

/-- `last_id = max([int(k) for k in orders.keys()] or [0])`
(`grab_app.py` line 271): the largest numeric key, 0 for an empty store. -/
def lastId (store : Store) : ℕ :=
  (store.map Prod.fst).foldl max 0

/-- The order record built for one cart line at checkout
(`grab_app.py` lines 276-284). -/
def mkOrder (username phone dropoff payment : String) (tip : ℚ)
    (item : CartLine) : Order :=
  { customer := username
    phone := phone
    restaurant := item.restaurant
    category := item.category
    food := item.food
    price := item.price
    quantity := item.quantity
    dropoff := dropoff
    payment := payment
    tip := tip
    status := "pending"
    driver := none
    rating_food := none
    rating_speed := none
    rating_service := none }

/-- The checkout loop (`grab_app.py` lines 273-284): for each cart line,
increment `last_id`, and insert the new order under the fresh key (a
fresh key appends at the end of the dict). -/
def checkoutLoop (username phone dropoff payment : String) (tip : ℚ) :
    ℕ → Store → Cart → Store
  | _, st, [] => st
  | lastSoFar, st, item :: rest =>
      checkoutLoop username phone dropoff payment tip (lastSoFar + 1)
        (st ++ [(lastSoFar + 1, mkOrder username phone dropoff payment tip item)])
        rest

/-- Error taxonomy of the spec: validation failures, missing order IDs,
and operations offered only in a different order state. -/
inductive AppError where
  | validation : AppError
  | notFound : AppError
  | invalidState : AppError
  deriving Repr, DecidableEq

/-- `checkout` (`grab_app.py` lines 264-290): reject an empty dropoff
(`if not dropoff`), otherwise run the checkout loop from the current
maximum ID and clear the cart. -/
def checkout (store : Store) (cart : Cart)
    (username phone dropoff payment : String) (tip : ℚ) :
    Except AppError (Store × Cart) :=
  if dropoff = "" then
    .error .validation
  else
    .ok (checkoutLoop username phone dropoff payment tip (lastId store) store cart, [])

/-- Dict lookup `orders[oid]` on the modelled store. -/
def findOrder (store : Store) (oid : ℕ) : Option Order :=
  (store.find? (fun e => e.1 == oid)).map Prod.snd

/-- Dict update `orders[oid] = o` for an existing key: the entry is
replaced in place, positions of all entries preserved. -/
def setOrder (store : Store) (oid : ℕ) (o : Order) : Store :=
  store.map (fun e => if e.1 = oid then (e.1, o) else e)

/-- `claimOrder` (`grab_app.py` lines 386-400): the driver page lists
only orders with status "pending" and offers a Claim button for each;
clicking sets `driver` to the logged-in driver and `status` to
"claimed".  An absent ID has no button (not found); a non-pending order
has no button (invalid state), so the store is left unchanged. -/
def claimOrder (store : Store) (oid : ℕ) (driver : String) :
    Except AppError Store :=
  match findOrder store oid with
  | none => .error .notFound
  | some o =>
      if o.status = "pending" then
        .ok (setOrder store oid { o with driver := some driver, status := "claimed" })
      else
        .error .invalidState

/-- A per-restaurant rating aggregate (`grab_app.py` line 328):
`{"rating_sum": 0, "rating_count": 0}` on first use. -/
structure RestAgg where
  rating_sum : ℕ
  rating_count : ℕ
  deriving Repr, DecidableEq

/-- A per-driver rating aggregate (`grab_app.py` lines 334-337):
three sums sharing one count. -/
structure DriverAgg where
  rating_sum : ℕ
  rating_count : ℕ
  speed_sum : ℕ
  service_sum : ℕ
  deriving Repr, DecidableEq

/-- The ratings dict: `{"restaurants": {...}, "drivers": {...}}`. -/
structure Ratings where
  restaurants : List (String × RestAgg)
  drivers : List (String × DriverAgg)
  deriving Repr, DecidableEq

/-- Dict lookup `m.get(name)` on a string-keyed dict. -/
def lookupName {α : Type} (m : List (String × α)) (name : String) : Option α :=
  (m.find? (fun e => e.1 == name)).map Prod.snd

/-- `m.setdefault(name, dflt)` followed by an in-place mutation `f` of
the returned entry: update the existing entry in place, or append the
mutated default at the end if the key is absent. -/
def setdefaultUpdate {α : Type} (dflt : α) (m : List (String × α))
    (name : String) (f : α → α) : List (String × α) :=
  if (m.find? (fun e => e.1 == name)).isSome then
    m.map (fun e => if e.1 = name then (e.1, f e.2) else e)
  else
    m ++ [(name, f dflt)]

/-- Dict lookup in the restaurants map. -/
def findRest (m : List (String × RestAgg)) (name : String) : Option RestAgg :=
  lookupName m name

/-- Dict lookup in the drivers map. -/
def findDriver (m : List (String × DriverAgg)) (name : String) : Option DriverAgg :=
  lookupName m name

/-- `ratings["restaurants"].setdefault(name, zeros)` followed by an
in-place mutation `f` (`grab_app.py` lines 328-330). -/
def updateRest (m : List (String × RestAgg)) (name : String)
    (f : RestAgg → RestAgg) : List (String × RestAgg) :=
  setdefaultUpdate ⟨0, 0⟩ m name f

/-- `ratings["drivers"].setdefault(name, zeros)` followed by an in-place
mutation `f` (`grab_app.py` lines 334-341). -/
def updateDriver (m : List (String × DriverAgg)) (name : String)
    (f : DriverAgg → DriverAgg) : List (String × DriverAgg) :=
  setdefaultUpdate ⟨0, 0, 0, 0⟩ m name f

/-- `submitRating` (`grab_app.py` lines 313-346): the rating form is
shown only when the order exists, has status "completed" and
`rating_food` is `None`; submitting writes the three rating fields,
adds `rating_food` to the restaurant aggregate and bumps its count, and,
when `o["driver"]` is truthy (a non-empty driver string), adds all three
values to the driver aggregate and bumps its single count. -/
def bumpRest (rf : ℕ) (a : RestAgg) : RestAgg :=
  { a with rating_sum := a.rating_sum + rf
           rating_count := a.rating_count + 1 }

def bumpDriver (rf rs rsv : ℕ) (a : DriverAgg) : DriverAgg :=
  { rating_sum := a.rating_sum + rf
    rating_count := a.rating_count + 1
    speed_sum := a.speed_sum + rs
    service_sum := a.service_sum + rsv }

/-- The aggregate updates of a successful rating submission
(`grab_app.py` lines 327-341): bump the restaurant aggregate with the
food score, and, when `o["driver"]` is truthy (a non-empty string), bump
the driver aggregate with all three scores. -/
def applyRating (rt : Ratings) (o : Order) (rf rs rsv : ℕ) : Ratings :=
  let rt1 : Ratings :=
    { rt with restaurants := updateRest rt.restaurants o.restaurant (bumpRest rf) }
  match o.driver with
  | some d =>
      if d = "" then rt1
      else { rt1 with drivers := updateDriver rt1.drivers d (bumpDriver rf rs rsv) }
  | none => rt1

def submitRating (store : Store) (rt : Ratings) (oid : ℕ)
    (rf rs rsv : ℕ) : Except AppError (Store × Ratings) :=
  match findOrder store oid with
  | none => .error .notFound
  | some o =>
      if o.status = "completed" ∧ o.rating_food = none then
        .ok (setOrder store oid
              { o with rating_food := some rf, rating_speed := some rs,
                       rating_service := some rsv },
             applyRating rt o rf rs rsv)
      else
        .error .invalidState

/-- The restaurant average display (`grab_app.py` lines 191-194): shown
only when the aggregate exists and `rating_count > 0`, as
`rating_sum / rating_count`; otherwise nothing is shown. -/
def restaurantAvgDisplay (rt : Ratings) (restaurant : String) : Option ℚ :=
  match findRest rt.restaurants restaurant with
  | some r =>
      if r.rating_count > 0 then
        some ((r.rating_sum : ℚ) / (r.rating_count : ℚ))
      else
        none
  | none => none

/-- The driver average display (`grab_app.py` lines 359-364): shown only
when the aggregate exists and `rating_count > 0`, as the three sums each
divided by the shared count. -/
def driverAvgDisplay (rt : Ratings) (driver : String) : Option (ℚ × ℚ × ℚ) :=
  match findDriver rt.drivers driver with
  | some d =>
      if d.rating_count > 0 then
        some ((d.rating_sum : ℚ) / (d.rating_count : ℚ),
              (d.speed_sum : ℚ) / (d.rating_count : ℚ),
              (d.service_sum : ℚ) / (d.rating_count : ℚ))
      else
        none
  | none => none

/-- Python string comparison on code-point lists: lexicographic by
Unicode code point, shorter strict first segment wins. -/
def charsLt : List Char → List Char → Bool
  | [], [] => false
  | [], _ :: _ => true
  | _ :: _, [] => false
  | a :: as, b :: bs =>
      if a.toNat < b.toNat then true
      else if b.toNat < a.toNat then false
      else charsLt as bs

/-- Python `<` on strings. -/
def pyStrLt (a b : String) : Bool :=
  charsLt a.data b.data

/-- The sort key of a store entry as Python sees it: the dict key, a
decimal numeral string. -/
def entryKey (e : ℕ × Order) : String :=
  Nat.repr e.1

/-- One step of the stable descending sort realised by
`sorted(..., reverse=True)`: insert `e` before the first entry whose
string key is strictly below the key of `e`. -/
def insertDesc (e : ℕ × Order) : Store → Store
  | [] => [e]
  | f :: rest =>
      if pyStrLt (entryKey f) (entryKey e) then e :: f :: rest
      else f :: insertDesc e rest

/-- `sorted(items, key=item[0], reverse=True)` on the store entries:
stable sort, descending in Python string order of the dict keys. -/
def sortKeysDesc : Store → Store
  | [] => []
  | e :: rest => insertDesc e (sortKeysDesc rest)

/-- `listOrdersByCustomer` (`grab_app.py` lines 297-304): keep the
orders whose `customer` field matches, then sort by the string dict key,
descending. -/
def listOrdersByCustomer (store : Store) (customer : String) : Store :=
  sortKeysDesc (store.filter (fun e => e.2.customer == customer))

/-- A continuation byte of a UTF-8 sequence: 0x80 to 0xBF. -/
def utf8Cont (c : ℕ) : Bool :=
  0x80 ≤ c ∧ c ≤ 0xBF

/-- Admissible first continuation byte of a three-byte UTF-8 sequence
with lead byte `b` (excludes overlong forms and surrogates, as the
strict codec does). -/
def utf8Cont3 (b c1 : ℕ) : Bool :=
  if b = 0xE0 then 0xA0 ≤ c1 ∧ c1 ≤ 0xBF
  else if b = 0xED then 0x80 ≤ c1 ∧ c1 ≤ 0x9F
  else utf8Cont c1

/-- Admissible first continuation byte of a four-byte UTF-8 sequence
with lead byte `b` (excludes overlong forms and code points past
U+10FFFF). -/
def utf8Cont4 (b c1 : ℕ) : Bool :=
  if b = 0xF0 then 0x90 ≤ c1 ∧ c1 ≤ 0xBF
  else if b = 0xF4 then 0x80 ≤ c1 ∧ c1 ≤ 0x8F
  else utf8Cont c1

/-- Strict UTF-8 decoding of file bytes into code points, modelling the
text decoding that `open(file, "r")` applies before `json.load` sees any
text (UTF-8 being the default locale encoding of the reference
deployment).  A malformed byte sequence yields no text: in Python that
is a `UnicodeDecodeError` raised inside `json.load`. -/
def utf8Decode : List ℕ → Option (List ℕ)
  | [] => some []
  | b :: rest =>
      if b < 0x80 then
        (utf8Decode rest).map (fun t => b :: t)
      else if b < 0xC2 then
        none
      else if b ≤ 0xDF then
        match rest with
        | c1 :: r =>
            if utf8Cont c1 then
              (utf8Decode r).map (fun t => ((b - 0xC0) * 0x40 + (c1 - 0x80)) :: t)
            else none
        | [] => none
      else if b ≤ 0xEF then
        match rest with
        | c1 :: c2 :: r =>
            if utf8Cont3 b c1 && utf8Cont c2 then
              (utf8Decode r).map (fun t =>
                ((b - 0xE0) * 0x1000 + (c1 - 0x80) * 0x40 + (c2 - 0x80)) :: t)
            else none
        | _ => none
      else if b ≤ 0xF4 then
        match rest with
        | c1 :: c2 :: c3 :: r =>
            if utf8Cont4 b c1 && utf8Cont c2 && utf8Cont c3 then
              (utf8Decode r).map (fun t =>
                ((b - 0xF0) * 0x40000 + (c1 - 0x80) * 0x1000
                  + (c2 - 0x80) * 0x40 + (c3 - 0x80)) :: t)
            else none
        | _ => none
      else
        none

/-- The one exception `load_data` can let escape: the `except` clause at
`grab_app.py` line 35 names only `json.JSONDecodeError`, and
`UnicodeDecodeError` is not a subclass of it, so a text-decoding failure
propagates to the caller. -/
inductive LoadError where
  | unicodeDecodeError : LoadError
  deriving Repr, DecidableEq

/-- `load_data` (`grab_app.py` lines 30-37) over the raw bytes of the
file: an absent file (`os.path.exists` false) yields the empty dict
without touching the bytes; for a present file the bytes are decoded as
text and the text is JSON-parsed (`parse` stands for the standard
library parser, `none` for `json.JSONDecodeError`).  A parse failure is
caught and yields the empty dict; a text-decoding failure raises
`UnicodeDecodeError`, which the `except json.JSONDecodeError` clause
does not catch, so it reaches the caller. -/
def load_data {α : Type} (parse : List ℕ → Option α) (empty : α) :
    Option (List ℕ) → Except LoadError α
  | none => .ok empty
  | some bytes =>
      match utf8Decode bytes with
      | none => .error .unicodeDecodeError
      | some text =>
          match parse text with
          | none => .ok empty
          | some v => .ok v

/-- A concrete ratings state used to instantiate the guarded-average
theorem: one restaurant with two ratings, one driver with two ratings. -/
def rtEx : Ratings :=
  { restaurants := [("Pizza Place", ⟨8, 2⟩)]
    drivers := [("bob", ⟨9, 2, 7, 6⟩)] }

/-- A concrete two-line cart used to instantiate the checkout theorems. -/
def cartEx : Cart :=
  [⟨"Pizza Place", "Pizza", "Margherita", 12, 2⟩,
   ⟨"Sushi Bar", "Drinks", "Sake", 8, 1⟩]

/-- A concrete pending order and one-order store instantiating the claim
transition theorem. -/
def pendingOrder : Order :=
  mkOrder "alice" "0123456789" "home" "Cash" 2
    ⟨"Pizza Place", "Pizza", "Margherita", 12, 1⟩

def storeEx1 : Store := [(1, pendingOrder)]

/-- The order record after its three rating fields are written
(`grab_app.py` lines 323-325). -/
def rateOrder (o : Order) (rf rs rsv : ℕ) : Order :=
  { o with rating_food := some rf
           rating_speed := some rs
           rating_service := some rsv }

/-- A concrete completed, unrated order with a driver, and the one-order
store holding it. -/
def completedOrder : Order :=
  { customer := "alice"
    phone := "0123456789"
    restaurant := "Pizza Place"
    category := "Pizza"
    food := "Margherita"
    price := 12
    quantity := 1
    dropoff := "home"
    payment := "Cash"
    tip := 2
    status := "completed"
    driver := some "bob"
    rating_food := none
    rating_speed := none
    rating_service := none }

def storeEx2 : Store := [(1, completedOrder)]

/-- The empty ratings state. -/
def rtEmpty : Ratings := ⟨[], []⟩

/-- Descending string order on store entries: the key of the first entry
is not strictly below the key of the second in Python string order. -/
def keyGe (x y : ℕ × Order) : Prop :=
  pyStrLt (entryKey x) (entryKey y) = false

/-- An order of "alice" used twice to form a store whose keys are 9 and
10: the decimal strings "10" < "9" in Python string order, while
10 > 9 numerically. -/
def aliceOrder : Order :=
  mkOrder "alice" "0123456789" "home" "Cash" 2
    ⟨"Pizza Place", "Pizza", "Margherita", 12, 1⟩

def storeNineTen : Store := [(9, aliceOrder), (10, aliceOrder)]

/-! Helper lemmas shared by several claim theorems. -/

lemma foldl_add_map_sum (f : CartLine → ℚ) :
    ∀ (cart : Cart) (init : ℚ),
      cart.foldl (fun s i => s + f i) init = init + (cart.map f).sum := by
  intro cart
  induction cart with
  | nil => intro init; simp
  | cons a l ih => intro init; simp [ih, add_assoc]

/-- Claim C6: for every cart, `computeTotals` returns `subtotal` equal to
the sum over all lines of `unitPrice * quantity`, `serviceTax` equal to
`subtotal * 0.10`, `deliveryCharge` equal to `subtotal * 0.06`, and
`total` equal to `subtotal + serviceTax + deliveryCharge`.  Side effects
on the cart are impossible: `computeTotals` is a plain function of the
cart and returns only the four numbers. -/
theorem computeTotals_formula (cart : Cart) :
    (computeTotals cart).subtotal
        = (cart.map (fun l => l.price * (l.quantity : ℚ))).sum
    ∧ (computeTotals cart).serviceTax = (computeTotals cart).subtotal * (10 / 100)
    ∧ (computeTotals cart).deliveryCharge = (computeTotals cart).subtotal * (6 / 100)
    ∧ (computeTotals cart).total
        = (computeTotals cart).subtotal + (computeTotals cart).serviceTax
            + (computeTotals cart).deliveryCharge := by
  refine ⟨?_, rfl, rfl, rfl⟩
  have h := foldl_add_map_sum (fun l => l.price * (l.quantity : ℚ)) cart 0
  simpa [computeTotals] using h

/-- Counterexample to claim C8 as stated: a present file holding the
single byte 0x80 (not valid UTF-8) makes `load_data` raise
`UnicodeDecodeError` to the caller instead of returning the empty
structure, so load can raise on invalid content. -/
theorem load_data_raises_on_undecodable_bytes :
    load_data (fun _ => (none : Option Store)) ([] : Store) (some [0x80])
        = .error .unicodeDecodeError
    ∧ load_data (fun _ => (none : Option Store)) ([] : Store) (some [0x80])
        ≠ .ok [] := by
  have h : load_data (fun _ => (none : Option Store)) ([] : Store) (some [0x80])
      = .error .unicodeDecodeError := rfl
  refine ⟨h, ?_⟩
  rw [h]
  exact fun hc => Except.noConfusion hc

/-- Claim C8 (amended): `load_data` yields the empty structure when the
file is absent, and when its bytes decode as text whose JSON parse
fails; a parsed value passes through.  Only the JSON parse failure
(`json.JSONDecodeError`) is absorbed: a present file whose bytes cannot
be decoded as text raises `UnicodeDecodeError` to the caller instead of
returning the empty structure. -/
theorem load_data_absorbs_parse_failures {α : Type}
    (parse : List ℕ → Option α) (empty : α) :
    load_data parse empty none = .ok empty
    ∧ (∀ bytes text, utf8Decode bytes = some text → parse text = none →
        load_data parse empty (some bytes) = .ok empty)
    ∧ (∀ bytes text v, utf8Decode bytes = some text → parse text = some v →
        load_data parse empty (some bytes) = .ok v)
    ∧ (∀ bytes, utf8Decode bytes = none →
        load_data parse empty (some bytes) = .error .unicodeDecodeError) := by
  refine ⟨rfl, ?_, ?_, ?_⟩
  · intro bytes text hdec hparse
    simp [load_data, hdec, hparse]
  · intro bytes text v hdec hparse
    simp [load_data, hdec, hparse]
  · intro bytes hdec
    simp [load_data, hdec]

/-- Witness for claim C8 at concrete byte contents: the decodable byte
0x7B whose text fails to parse is absorbed into the empty store, and the
undecodable byte 0x80 raises. -/
theorem load_data_absorbs_parse_failures_concrete :
    load_data (fun _ => (none : Option Store)) ([] : Store) none = .ok []
    ∧ utf8Decode [0x7B] = some [0x7B]
    ∧ load_data (fun _ => (none : Option Store)) ([] : Store) (some [0x7B]) = .ok []
    ∧ utf8Decode [0x80] = none
    ∧ load_data (fun _ => (none : Option Store)) ([] : Store) (some [0x80])
        = .error .unicodeDecodeError :=
  ⟨(load_data_absorbs_parse_failures (fun _ => (none : Option Store)) ([] : Store)).1,
   by decide,
   (load_data_absorbs_parse_failures (fun _ => (none : Option Store))
      ([] : Store)).2.1 [0x7B] [0x7B] (by decide) rfl,
   by decide,
   (load_data_absorbs_parse_failures (fun _ => (none : Option Store))
      ([] : Store)).2.2.2 [0x80] (by decide)⟩

/-- Claim C9: the displayed averages equal sum divided by count exactly
when the aggregate exists with positive count (and the divisor is then
nonzero, so no division by zero is performed); with a zero count or a
missing aggregate nothing is displayed.  Both the restaurant display and
the three-fold driver display are covered. -/
theorem average_guarded (rt : Ratings) (name : String) :
    (∀ r, findRest rt.restaurants name = some r →
        (0 < r.rating_count →
            restaurantAvgDisplay rt name
                = some ((r.rating_sum : ℚ) / (r.rating_count : ℚ))
            ∧ ((r.rating_count : ℚ) ≠ 0))
        ∧ (r.rating_count = 0 → restaurantAvgDisplay rt name = none))
    ∧ (findRest rt.restaurants name = none → restaurantAvgDisplay rt name = none)
    ∧ (∀ d, findDriver rt.drivers name = some d →
        (0 < d.rating_count →
            driverAvgDisplay rt name
                = some ((d.rating_sum : ℚ) / (d.rating_count : ℚ),
                        (d.speed_sum : ℚ) / (d.rating_count : ℚ),
                        (d.service_sum : ℚ) / (d.rating_count : ℚ))
            ∧ ((d.rating_count : ℚ) ≠ 0))
        ∧ (d.rating_count = 0 → driverAvgDisplay rt name = none))
    ∧ (findDriver rt.drivers name = none → driverAvgDisplay rt name = none) := by
  refine ⟨?_, ?_, ?_, ?_⟩
  · intro r hr
    constructor
    · intro hpos
      constructor
      · simp [restaurantAvgDisplay, hr, hpos]
      · exact_mod_cast Nat.pos_iff_ne_zero.mp hpos
    · intro hz
      simp [restaurantAvgDisplay, hr, hz]
  · intro hnone
    simp [restaurantAvgDisplay, hnone]
  · intro d hd
    constructor
    · intro hpos
      constructor
      · simp [driverAvgDisplay, hd, hpos]
      · exact_mod_cast Nat.pos_iff_ne_zero.mp hpos
    · intro hz
      simp [driverAvgDisplay, hd, hz]
  · intro hnone
    simp [driverAvgDisplay, hnone]

/-- Witness for claim C9 at a concrete ratings state. -/
theorem average_guarded_concrete :
    restaurantAvgDisplay rtEx "Pizza Place"
        = some (((8 : ℕ) : ℚ) / ((2 : ℕ) : ℚ))
    ∧ (((2 : ℕ) : ℚ) ≠ 0) := by
  have h := ((average_guarded rtEx "Pizza Place").1 ⟨8, 2⟩ rfl).1 (by decide)
  exact h

lemma addItem_cond_iff (item : CartLine) (R F : String) :
    (item.food = F ∧ item.restaurant = R) ↔ lineKey item = (R, F) := by
  simp [lineKey, Prod.ext_iff, and_comm]

lemma keyQty_cons (l : CartLine) (rest : Cart) (p : String × String) :
    keyQty (l :: rest) p
      = (if lineKey l = p then l.quantity else 0) + keyQty rest p := by
  by_cases h : lineKey l = p <;> simp [keyQty, List.filter_cons, h]

lemma keyCount_cons (l : CartLine) (rest : Cart) (p : String × String) :
    keyCount (l :: rest) p
      = (if lineKey l = p then 1 else 0) + keyCount rest p := by
  by_cases h : lineKey l = p <;> simp [keyCount, List.countP_cons, h] <;> omega

lemma keyQty_addItem (cart : Cart) (R C F : String) (P : ℚ) (p : String × String) :
    keyQty (addItem cart R C F P) p
      = if p = (R, F) then keyQty cart p + 1 else keyQty cart p := by
  induction cart with
  | nil =>
      simp only [addItem]
      rw [keyQty_cons]
      have hk : lineKey (⟨R, C, F, P, 1⟩ : CartLine) = (R, F) := rfl
      rw [hk]
      by_cases hp : p = (R, F)
      · subst hp; simp [keyQty]
      · have h2 : ¬((R, F) = p) := fun e => hp e.symm
        simp [h2, hp, keyQty]
  | cons item rest ih =>
      by_cases hc : item.food = F ∧ item.restaurant = R
      · have hkey : lineKey item = (R, F) := (addItem_cond_iff item R F).mp hc
        simp only [addItem, if_pos hc]
        simp only [keyQty_cons]
        have hbk : lineKey { item with quantity := item.quantity + 1 } = (R, F) := hkey
        rw [hbk, hkey]
        by_cases hp : p = (R, F)
        · subst hp; simp; omega
        · have h2 : ¬((R, F) = p) := fun e => hp e.symm
          rw [if_neg hp, if_neg h2, if_neg h2]
      · have hkey : lineKey item ≠ (R, F) := fun e => hc ((addItem_cond_iff item R F).mpr e)
        simp only [addItem, if_neg hc]
        simp only [keyQty_cons, ih]
        split_ifs <;> omega

lemma keyCount_addItem_pos (cart : Cart) (R C F : String) (P : ℚ)
    (p : String × String) (h : keyCount cart (R, F) ≠ 0) :
    keyCount (addItem cart R C F P) p = keyCount cart p := by
  induction cart with
  | nil => exact absurd rfl h
  | cons item rest ih =>
      by_cases hc : item.food = F ∧ item.restaurant = R
      · simp only [addItem, if_pos hc]
        rw [keyCount_cons, keyCount_cons]
        rfl
      · have hkey : lineKey item ≠ (R, F) := fun e => hc ((addItem_cond_iff item R F).mpr e)
        have h' : keyCount rest (R, F) ≠ 0 := by
          rw [keyCount_cons, if_neg hkey] at h
          simpa using h
        simp only [addItem, if_neg hc]
        rw [keyCount_cons, keyCount_cons, ih h']

lemma keyCount_addItem_zero (cart : Cart) (R C F : String) (P : ℚ)
    (p : String × String) (h : keyCount cart (R, F) = 0) :
    keyCount (addItem cart R C F P) p
      = if p = (R, F) then keyCount cart p + 1 else keyCount cart p := by
  induction cart with
  | nil =>
      simp only [addItem]
      rw [keyCount_cons]
      have hk : lineKey (⟨R, C, F, P, 1⟩ : CartLine) = (R, F) := rfl
      rw [hk]
      by_cases hp : p = (R, F)
      · subst hp; simp [keyCount]
      · have h2 : ¬((R, F) = p) := fun e => hp e.symm
        simp [h2, hp, keyCount]
  | cons item rest ih =>
      have hkey : lineKey item ≠ (R, F) := by
        intro e
        rw [keyCount_cons, if_pos e] at h
        omega
      have hc : ¬(item.food = F ∧ item.restaurant = R) :=
        fun e => hkey ((addItem_cond_iff item R F).mp e)
      have h' : keyCount rest (R, F) = 0 := by
        rw [keyCount_cons, if_neg hkey] at h
        omega
      simp only [addItem, if_neg hc]
      rw [keyCount_cons, ih h', keyCount_cons]
      split_ifs <;> omega

lemma keyQty_foldl (reqs : List AddReq) :
    ∀ (c : Cart) (p : String × String),
      keyQty (reqs.foldl (fun c r => addItem c r.restaurant r.category r.food r.price) c) p
        = keyQty c p + reqs.countP (fun r => reqKey r = p) := by
  induction reqs with
  | nil => intro c p; simp
  | cons r rs ih =>
      intro c p
      rw [List.foldl_cons, ih, keyQty_addItem, List.countP_cons]
      simp only [decide_eq_true_eq]
      by_cases hp : p = (r.restaurant, r.food)
      · have hk : reqKey r = p := hp.symm
        rw [if_pos hp, if_pos hk]
        omega
      · have hk : ¬ reqKey r = p := fun e => hp e.symm
        rw [if_neg hp, if_neg hk]
        omega

lemma keyCount_foldl (reqs : List AddReq) :
    ∀ (c : Cart) (p : String × String),
      keyCount (reqs.foldl (fun c r => addItem c r.restaurant r.category r.food r.price) c) p
        = if keyCount c p = 0 then
            (if reqs.countP (fun r => reqKey r = p) = 0 then 0 else 1)
          else keyCount c p := by
  induction reqs with
  | nil => intro c p; by_cases h : keyCount c p = 0 <;> simp [h]
  | cons r rs ih =>
      intro c p
      rw [List.foldl_cons, ih, List.countP_cons]
      simp only [decide_eq_true_eq]
      by_cases hp : p = (r.restaurant, r.food)
      · subst hp
        have hk : reqKey r = (r.restaurant, r.food) := rfl
        rw [if_pos hk]
        by_cases hz : keyCount c (r.restaurant, r.food) = 0
        · rw [keyCount_addItem_zero c r.restaurant r.category r.food r.price _ hz,
            if_pos rfl]
          split_ifs <;> first | omega | simp_all
        · rw [keyCount_addItem_pos c r.restaurant r.category r.food r.price _ hz]
          split_ifs <;> first | omega | simp_all
      · have hk : ¬ reqKey r = p := fun e => hp e.symm
        rw [if_neg hk]
        have hstep : keyCount (addItem c r.restaurant r.category r.food r.price) p
            = keyCount c p := by
          by_cases hz : keyCount c (r.restaurant, r.food) = 0
          · rw [keyCount_addItem_zero c r.restaurant r.category r.food r.price _ hz,
              if_neg hp]
          · rw [keyCount_addItem_pos c r.restaurant r.category r.food r.price _ hz]
        rw [hstep]
        simp

/-- Claim C7: replaying any finite sequence of Add-to-Cart calls from
the empty cart leaves exactly one cart line per distinct
(restaurant, food) pair that occurs in the sequence (an existing pair is
incremented, never duplicated), and the total quantity held under each
pair equals the number of calls made for that pair.  `addItem` is a
total function, so every call succeeds. -/
theorem addItem_cart_invariant (reqs : List AddReq) (p : String × String) :
    keyCount (applyAdds reqs) p
        = (if reqs.countP (fun r => reqKey r = p) = 0 then 0 else 1)
    ∧ keyQty (applyAdds reqs) p = reqs.countP (fun r => reqKey r = p) := by
  constructor
  · have h := keyCount_foldl reqs [] p
    simpa [applyAdds, keyCount] using h
  · have h := keyQty_foldl reqs [] p
    simpa [applyAdds, keyQty] using h

lemma checkoutLoop_eq (u p d pay : String) (tip : ℚ) :
    ∀ (cart : Cart) (n : ℕ) (st : Store),
      checkoutLoop u p d pay tip n st cart
        = st ++ (List.range' (n + 1) cart.length).zip (cart.map (mkOrder u p d pay tip)) := by
  intro cart
  induction cart with
  | nil => intro n st; simp [checkoutLoop]
  | cons item rest ih =>
      intro n st
      rw [checkoutLoop, ih]
      simp [List.range'_succ, List.append_assoc]

lemma foldl_max_le (l : List ℕ) :
    ∀ init : ℕ, init ≤ l.foldl max init ∧ ∀ a ∈ l, a ≤ l.foldl max init := by
  induction l with
  | nil => intro init; simp
  | cons b l ih =>
      intro init
      have h := ih (max init b)
      rw [List.foldl_cons]
      constructor
      · exact le_trans (le_max_left init b) h.1
      · intro a ha
        rcases List.mem_cons.mp ha with rfl | ha
        · exact le_trans (le_max_right init a) h.1
        · exact h.2 a ha

lemma mem_le_lastId (store : Store) : ∀ k ∈ store.map Prod.fst, k ≤ lastId store :=
  (foldl_max_le (store.map Prod.fst) 0).2

/-- Claim C1: checkout of a non-empty cart with a valid dropoff creates
exactly one new order per cart line, in cart order, appended after the
existing entries; the new IDs are the consecutive run starting one past
the current maximum ID (so they start at 1 on an empty store), are
pairwise distinct, and each exceeds every pre-existing numeric ID; every
new order has status "pending", no driver, and all three rating fields
absent. -/
theorem checkout_allocates_fresh_ids (store : Store) (cart : Cart)
    (u p dropoff pay : String) (tip : ℚ)
    (hcart : cart ≠ []) (hdrop : dropoff ≠ "") :
    ∃ news : Store,
      checkout store cart u p dropoff pay tip = .ok (store ++ news, [])
      ∧ news = (List.range' (lastId store + 1) cart.length).zip
          (cart.map (mkOrder u p dropoff pay tip))
      ∧ news.length = cart.length
      ∧ news.map Prod.fst = List.range' (lastId store + 1) cart.length
      ∧ (news.map Prod.fst).Nodup
      ∧ (∀ e ∈ news, ∀ k ∈ store.map Prod.fst, k < e.1)
      ∧ (store = [] → news.map Prod.fst = List.range' 1 cart.length)
      ∧ (∀ e ∈ news, e.2.status = "pending" ∧ e.2.driver = none
          ∧ e.2.rating_food = none ∧ e.2.rating_speed = none
          ∧ e.2.rating_service = none) := by
  have hmf : ((List.range' (lastId store + 1) cart.length).zip
      (cart.map (mkOrder u p dropoff pay tip))).map Prod.fst
      = List.range' (lastId store + 1) cart.length := by
    apply List.map_fst_zip
    simp
  have hlen : ((List.range' (lastId store + 1) cart.length).zip
      (cart.map (mkOrder u p dropoff pay tip))).length = cart.length := by
    simp
  refine ⟨_, ?_, rfl, hlen, hmf, ?_, ?_, ?_, ?_⟩
  · unfold checkout
    rw [if_neg hdrop, checkoutLoop_eq]
  · rw [hmf]
    exact List.nodup_range' _ _
  · rintro ⟨a, b⟩ he k hk
    have ha : a ∈ List.range' (lastId store + 1) cart.length :=
      (List.of_mem_zip he).1
    have h1 : lastId store + 1 ≤ a := (List.mem_range'_1.mp ha).1
    have h2 : k ≤ lastId store := mem_le_lastId store k hk
    omega
  · intro hempty
    subst hempty
    simpa using hmf
  · rintro ⟨a, b⟩ he
    have hb : b ∈ cart.map (mkOrder u p dropoff pay tip) :=
      (List.of_mem_zip he).2
    obtain ⟨item, _, rfl⟩ := List.mem_map.mp hb
    exact ⟨rfl, rfl, rfl, rfl, rfl⟩

/-- Witness for claim C1: checkout of a concrete two-line cart on the
empty store. -/
theorem checkout_allocates_fresh_ids_concrete :
    cartEx ≠ [] ∧ ("home" : String) ≠ ""
    ∧ ∃ news : Store,
        checkout [] cartEx "alice" "0123456789" "home" "Cash" 2
            = .ok ([] ++ news, [])
        ∧ news = (List.range' (lastId [] + 1) cartEx.length).zip
            (cartEx.map (mkOrder "alice" "0123456789" "home" "Cash" 2))
        ∧ news.length = cartEx.length
        ∧ news.map Prod.fst = List.range' (lastId [] + 1) cartEx.length
        ∧ (news.map Prod.fst).Nodup
        ∧ (∀ e ∈ news, ∀ k ∈ (List.map Prod.fst ([] : Store)), k < e.1)
        ∧ (([] : Store) = [] → news.map Prod.fst = List.range' 1 cartEx.length)
        ∧ (∀ e ∈ news, e.2.status = "pending" ∧ e.2.driver = none
            ∧ e.2.rating_food = none ∧ e.2.rating_speed = none
            ∧ e.2.rating_service = none) :=
  ⟨by simp [cartEx], by simp,
    checkout_allocates_fresh_ids [] cartEx "alice" "0123456789" "home" "Cash" 2
      (by simp [cartEx]) (by simp)⟩

/-- Claim C10: every checkout of a cart with at least two lines stamps
identical customer, phone, dropoff, payment and tip values on each
created order; in particular the full tip amount is recorded on every
order, replicated per line rather than split. -/
theorem checkout_replicates_fields (store : Store) (cart : Cart)
    (u p dropoff pay : String) (tip : ℚ)
    (hcart : 2 ≤ cart.length) (hdrop : dropoff ≠ "") :
    ∃ news : Store,
      checkout store cart u p dropoff pay tip = .ok (store ++ news, [])
      ∧ news.length = cart.length
      ∧ (∀ e ∈ news, e.2.customer = u ∧ e.2.phone = p ∧ e.2.dropoff = dropoff
          ∧ e.2.payment = pay ∧ e.2.tip = tip) := by
  refine ⟨(List.range' (lastId store + 1) cart.length).zip
      (cart.map (mkOrder u p dropoff pay tip)), ?_, by simp, ?_⟩
  · unfold checkout
    rw [if_neg hdrop, checkoutLoop_eq]
  · rintro ⟨a, b⟩ he
    have hb : b ∈ cart.map (mkOrder u p dropoff pay tip) :=
      (List.of_mem_zip he).2
    obtain ⟨item, _, rfl⟩ := List.mem_map.mp hb
    exact ⟨rfl, rfl, rfl, rfl, rfl⟩

/-- Witness for claim C10 at the concrete two-line cart. -/
theorem checkout_replicates_fields_concrete :
    2 ≤ cartEx.length ∧ ("home" : String) ≠ ""
    ∧ ∃ news : Store,
        checkout [] cartEx "alice" "0123456789" "home" "Cash" 2
            = .ok ([] ++ news, [])
        ∧ news.length = cartEx.length
        ∧ (∀ e ∈ news, e.2.customer = "alice" ∧ e.2.phone = "0123456789"
            ∧ e.2.dropoff = "home" ∧ e.2.payment = "Cash" ∧ e.2.tip = 2) :=
  ⟨by simp [cartEx], by simp,
    checkout_replicates_fields [] cartEx "alice" "0123456789" "home" "Cash" 2
      (by simp [cartEx]) (by simp)⟩

lemma findOrder_setOrder_self (store : Store) (oid : ℕ) (o : Order)
    (h : (findOrder store oid).isSome) :
    findOrder (setOrder store oid o) oid = some o := by
  induction store with
  | nil => simp [findOrder] at h
  | cons e rest ih =>
      by_cases he : e.1 = oid
      · simp [findOrder, setOrder, List.find?_cons, he]
      · have h' : (findOrder rest oid).isSome := by
          simpa [findOrder, List.find?_cons, he] using h
        have hrec := ih h'
        simpa [findOrder, setOrder, List.find?_cons, he] using hrec

lemma findOrder_setOrder_other (store : Store) (oid : ℕ) (o : Order)
    (oid' : ℕ) (hne : oid' ≠ oid) :
    findOrder (setOrder store oid o) oid' = findOrder store oid' := by
  induction store with
  | nil => rfl
  | cons e rest ih =>
      show findOrder ((if e.1 = oid then (e.1, o) else e) :: setOrder rest oid o) oid'
          = findOrder (e :: rest) oid'
      by_cases heo : e.1 = oid
      · have hk2 : ¬ ((e.1 == oid') = true) := by
          simp only [beq_iff_eq]
          rw [heo]
          exact fun h => hne h.symm
        rw [if_pos heo]
        unfold findOrder
        have h1 : List.find? (fun x : ℕ × Order => x.1 == oid')
            ((e.1, o) :: setOrder rest oid o)
            = List.find? (fun x : ℕ × Order => x.1 == oid') (setOrder rest oid o) :=
          List.find?_cons_of_neg _ hk2
        have h2 : List.find? (fun x : ℕ × Order => x.1 == oid') (e :: rest)
            = List.find? (fun x : ℕ × Order => x.1 == oid') rest :=
          List.find?_cons_of_neg _ hk2
        rw [h1, h2]
        exact ih
      · rw [if_neg heo]
        by_cases hk : (e.1 == oid') = true
        · have h1 : List.find? (fun x : ℕ × Order => x.1 == oid')
              (e :: setOrder rest oid o) = some e :=
            List.find?_cons_of_pos _ hk
          have h2 : List.find? (fun x : ℕ × Order => x.1 == oid') (e :: rest)
              = some e :=
            List.find?_cons_of_pos _ hk
          unfold findOrder
          rw [h1, h2]
        · have h1 : List.find? (fun x : ℕ × Order => x.1 == oid')
              (e :: setOrder rest oid o)
              = List.find? (fun x : ℕ × Order => x.1 == oid') (setOrder rest oid o) :=
            List.find?_cons_of_neg _ hk
          have h2 : List.find? (fun x : ℕ × Order => x.1 == oid') (e :: rest)
              = List.find? (fun x : ℕ × Order => x.1 == oid') rest :=
            List.find?_cons_of_neg _ hk
          unfold findOrder
          rw [h1, h2]
          exact ih

/-- Claim C3: claiming a pending order records the given driver and
moves the status to "claimed", leaving every other order untouched; a
claim on an order whose status is not "pending" (in particular a second
claim of the same order) is refused with an invalid-state failure and
produces no new store. -/
theorem claimOrder_transitions (store : Store) (oid : ℕ) (driver : String)
    (o : Order) (hfind : findOrder store oid = some o) :
    (o.status = "pending" →
        ∃ store', claimOrder store oid driver = .ok store'
          ∧ findOrder store' oid
              = some { o with driver := some driver, status := "claimed" }
          ∧ (∀ oid', oid' ≠ oid → findOrder store' oid' = findOrder store oid')
          ∧ ∀ d2, claimOrder store' oid d2 = .error .invalidState)
    ∧ (o.status ≠ "pending" →
        claimOrder store oid driver = .error .invalidState) := by
  constructor
  · intro hp
    have hsome : (findOrder store oid).isSome := by rw [hfind]; rfl
    have hf2 : findOrder
        (setOrder store oid { o with driver := some driver, status := "claimed" }) oid
        = some { o with driver := some driver, status := "claimed" } :=
      findOrder_setOrder_self store oid _ hsome
    refine ⟨setOrder store oid { o with driver := some driver, status := "claimed" },
      ?_, hf2, ?_, ?_⟩
    · simp [claimOrder, hfind, hp]
    · intro oid' hne
      exact findOrder_setOrder_other store oid _ oid' hne
    · intro d2
      have hcl : ({ o with driver := some driver, status := "claimed"} : Order).status
          = "claimed" := rfl
      simp [claimOrder, hf2]
  · intro hnp
    simp [claimOrder, hfind, hnp]

/-- Witness for claim C3: the concrete pending order is claimed by
"bob", and a second claim is refused. -/
theorem claimOrder_transitions_concrete :
    pendingOrder.status = "pending"
    ∧ ∃ store', claimOrder storeEx1 1 "bob" = .ok store'
        ∧ findOrder store' 1
            = some { pendingOrder with driver := some "bob", status := "claimed" }
        ∧ (∀ oid', oid' ≠ 1 → findOrder store' oid' = findOrder storeEx1 oid')
        ∧ ∀ d2, claimOrder store' 1 d2 = .error .invalidState :=
  ⟨rfl, (claimOrder_transitions storeEx1 1 "bob" pendingOrder rfl).1 rfl⟩

lemma lookup_map_update {α : Type} (m : List (String × α)) (name : String)
    (f : α → α) (a : α) (h : lookupName m name = some a) :
    lookupName (m.map (fun e => if e.1 = name then (e.1, f e.2) else e)) name
      = some (f a) := by
  induction m with
  | nil => simp [lookupName] at h
  | cons e rest ih =>
      show lookupName ((if e.1 = name then (e.1, f e.2) else e)
          :: rest.map (fun e => if e.1 = name then (e.1, f e.2) else e)) name
          = some (f a)
      by_cases he : e.1 = name
      · rw [if_pos he]
        have hk : ((e.1 == name) = true) := by simp [he]
        have h1 : List.find? (fun x : String × α => x.1 == name)
            ((e.1, f e.2)
              :: rest.map (fun e => if e.1 = name then (e.1, f e.2) else e))
            = some (e.1, f e.2) :=
          List.find?_cons_of_pos _ hk
        have h2 : List.find? (fun x : String × α => x.1 == name) (e :: rest)
            = some e :=
          List.find?_cons_of_pos _ hk
        unfold lookupName at h ⊢
        rw [h2] at h
        rw [h1]
        simp at h
        simp [h]
      · rw [if_neg he]
        have hk : ¬ ((e.1 == name) = true) := by simp [he]
        have h1 : List.find? (fun x : String × α => x.1 == name)
            (e :: rest.map (fun e => if e.1 = name then (e.1, f e.2) else e))
            = List.find? (fun x : String × α => x.1 == name)
                (rest.map (fun e => if e.1 = name then (e.1, f e.2) else e)) :=
          List.find?_cons_of_neg _ hk
        have h2 : List.find? (fun x : String × α => x.1 == name) (e :: rest)
            = List.find? (fun x : String × α => x.1 == name) rest :=
          List.find?_cons_of_neg _ hk
        unfold lookupName at h ⊢
        rw [h2] at h
        rw [h1]
        exact ih h

lemma lookup_map_update_other {α : Type} (m : List (String × α))
    (name other : String) (f : α → α) (hne : other ≠ name) :
    lookupName (m.map (fun e => if e.1 = name then (e.1, f e.2) else e)) other
      = lookupName m other := by
  induction m with
  | nil => rfl
  | cons e rest ih =>
      show lookupName ((if e.1 = name then (e.1, f e.2) else e)
          :: rest.map (fun e => if e.1 = name then (e.1, f e.2) else e)) other
          = lookupName (e :: rest) other
      by_cases he : e.1 = name
      · rw [if_pos he]
        have hk : ¬ ((e.1 == other) = true) := by
          simp only [beq_iff_eq, he]
          exact fun hh => hne hh.symm
        have h1 : List.find? (fun x : String × α => x.1 == other)
            ((e.1, f e.2)
              :: rest.map (fun e => if e.1 = name then (e.1, f e.2) else e))
            = List.find? (fun x : String × α => x.1 == other)
                (rest.map (fun e => if e.1 = name then (e.1, f e.2) else e)) :=
          List.find?_cons_of_neg _ hk
        have h2 : List.find? (fun x : String × α => x.1 == other) (e :: rest)
            = List.find? (fun x : String × α => x.1 == other) rest :=
          List.find?_cons_of_neg _ hk
        unfold lookupName
        rw [h1, h2]
        exact ih
      · rw [if_neg he]
        by_cases hk : (e.1 == other) = true
        · have h1 : List.find? (fun x : String × α => x.1 == other)
              (e :: rest.map (fun e => if e.1 = name then (e.1, f e.2) else e))
              = some e :=
            List.find?_cons_of_pos _ hk
          have h2 : List.find? (fun x : String × α => x.1 == other) (e :: rest)
              = some e :=
            List.find?_cons_of_pos _ hk
          unfold lookupName
          rw [h1, h2]
        · have h1 : List.find? (fun x : String × α => x.1 == other)
              (e :: rest.map (fun e => if e.1 = name then (e.1, f e.2) else e))
              = List.find? (fun x : String × α => x.1 == other)
                  (rest.map (fun e => if e.1 = name then (e.1, f e.2) else e)) :=
            List.find?_cons_of_neg _ hk
          have h2 : List.find? (fun x : String × α => x.1 == other) (e :: rest)
              = List.find? (fun x : String × α => x.1 == other) rest :=
            List.find?_cons_of_neg _ hk
          unfold lookupName
          rw [h1, h2]
          exact ih

lemma lookup_append_absent {α : Type} (m : List (String × α)) (name : String)
    (v : α) (h : lookupName m name = none) :
    lookupName (m ++ [(name, v)]) name = some v := by
  have hf : m.find? (fun e => e.1 == name) = none := by
    unfold lookupName at h
    cases hx : m.find? (fun e => e.1 == name) with
    | none => rfl
    | some a => rw [hx] at h; simp at h
  simp [lookupName, List.find?_append, hf]

lemma lookup_append_other {α : Type} (m : List (String × α))
    (name other : String) (v : α) (hne : other ≠ name) :
    lookupName (m ++ [(name, v)]) other = lookupName m other := by
  have hk : name ≠ other := fun hh => hne hh.symm
  unfold lookupName
  rw [List.find?_append]
  have h2 : List.find? (fun e : String × α => e.1 == other) [(name, v)]
      = none := by
    simp [hk]
  rw [h2]
  cases List.find? (fun e : String × α => e.1 == other) m <;> rfl

lemma lookupName_setdefaultUpdate_self {α : Type} (dflt : α)
    (m : List (String × α)) (name : String) (f : α → α) :
    lookupName (setdefaultUpdate dflt m name f) name
      = some (f ((lookupName m name).getD dflt)) := by
  unfold setdefaultUpdate
  by_cases h : (m.find? (fun e => e.1 == name)).isSome
  · rw [if_pos h]
    obtain ⟨a, ha⟩ := Option.isSome_iff_exists.mp h
    have hL : lookupName m name = some a.2 := by simp [lookupName, ha]
    rw [hL]
    exact lookup_map_update m name f a.2 hL
  · rw [if_neg h]
    have hL : lookupName m name = none := by
      unfold lookupName
      rw [Option.not_isSome_iff_eq_none.mp h]
      rfl
    rw [hL]
    exact lookup_append_absent m name (f dflt) hL

lemma lookupName_setdefaultUpdate_other {α : Type} (dflt : α)
    (m : List (String × α)) (name other : String) (f : α → α)
    (hne : other ≠ name) :
    lookupName (setdefaultUpdate dflt m name f) other = lookupName m other := by
  unfold setdefaultUpdate
  by_cases h : (m.find? (fun e => e.1 == name)).isSome
  · rw [if_pos h]
    exact lookup_map_update_other m name other f hne
  · rw [if_neg h]
    exact lookup_append_other m name other (f dflt) hne

lemma applyRating_restaurants (rt : Ratings) (o : Order) (rf rs rsv : ℕ) :
    (applyRating rt o rf rs rsv).restaurants
      = updateRest rt.restaurants o.restaurant (bumpRest rf) := by
  unfold applyRating
  cases o.driver with
  | none => rfl
  | some d => by_cases hd : d = "" <;> simp [hd]

lemma applyRating_drivers_some (rt : Ratings) (o : Order) (rf rs rsv : ℕ)
    (d : String) (hd : o.driver = some d) (hdne : d ≠ "") :
    (applyRating rt o rf rs rsv).drivers
      = updateDriver rt.drivers d (bumpDriver rf rs rsv) := by
  unfold applyRating
  rw [hd]
  simp [hdne]

lemma applyRating_drivers_none (rt : Ratings) (o : Order) (rf rs rsv : ℕ)
    (hd : o.driver = none) :
    (applyRating rt o rf rs rsv).drivers = rt.drivers := by
  unfold applyRating
  rw [hd]

/-- Claim C4: rating submission is write-once.  On a completed, unrated
order one submission succeeds and stores the three values; any second
submission on the same order is refused with an invalid-state failure
and produces no new store and no new aggregates, so the first values and
the aggregate sums and counts stand.  Conversely a submission on an
order that is not completed, or that already carries a rating, is
refused. -/
theorem submitRating_write_once (store : Store) (rt : Ratings) (oid : ℕ)
    (rf rs rsv : ℕ) (o : Order) (hfind : findOrder store oid = some o) :
    (o.status = "completed" → o.rating_food = none →
        ∃ store' rt',
          submitRating store rt oid rf rs rsv = .ok (store', rt')
          ∧ findOrder store' oid = some (rateOrder o rf rs rsv)
          ∧ ∀ rf2 rs2 rsv2,
              submitRating store' rt' oid rf2 rs2 rsv2 = .error .invalidState)
    ∧ (¬(o.status = "completed" ∧ o.rating_food = none) →
        submitRating store rt oid rf rs rsv = .error .invalidState) := by
  constructor
  · intro hst hnone
    have hsome : (findOrder store oid).isSome := by rw [hfind]; rfl
    have hf2 := findOrder_setOrder_self store oid (rateOrder o rf rs rsv) hsome
    refine ⟨setOrder store oid (rateOrder o rf rs rsv),
      applyRating rt o rf rs rsv, ?_, hf2, ?_⟩
    · simp [submitRating, hfind, hst, hnone, rateOrder]
    · intro rf2 rs2 rsv2
      unfold submitRating
      rw [hf2]
      simp [rateOrder]
  · intro hn
    simp [submitRating, hfind, hn]

/-- Witness for claim C4: one rating of the concrete completed order
succeeds and a second is refused. -/
theorem submitRating_write_once_concrete :
    completedOrder.status = "completed" ∧ completedOrder.rating_food = none
    ∧ ∃ store' rt',
        submitRating storeEx2 rtEmpty 1 5 4 3 = .ok (store', rt')
        ∧ findOrder store' 1 = some (rateOrder completedOrder 5 4 3)
        ∧ ∀ rf2 rs2 rsv2,
            submitRating store' rt' 1 rf2 rs2 rsv2 = .error .invalidState :=
  ⟨rfl, rfl,
    (submitRating_write_once storeEx2 rtEmpty 1 5 4 3 completedOrder rfl).1 rfl rfl⟩

/-- Claim C5: a successful rating of a completed, unrated order with all
three scores in [1,5] writes the three fields on that order only, adds
the food score alone to the restaurant aggregate and bumps its count by
one, and, when a (non-empty) driver is assigned, adds food, speed and
service scores to the three driver sums and bumps the single driver
count by one; a missing aggregate starts from zero sums and zero count,
and a driverless order leaves the driver aggregates untouched. -/
theorem submitRating_updates_aggregates (store : Store) (rt : Ratings)
    (oid : ℕ) (rf rs rsv : ℕ) (o : Order)
    (hfind : findOrder store oid = some o)
    (hst : o.status = "completed") (hnone : o.rating_food = none)
    (hrf : 1 ≤ rf ∧ rf ≤ 5) (hrs : 1 ≤ rs ∧ rs ≤ 5) (hrsv : 1 ≤ rsv ∧ rsv ≤ 5) :
    ∃ store' rt',
      submitRating store rt oid rf rs rsv = .ok (store', rt')
      ∧ findOrder store' oid = some (rateOrder o rf rs rsv)
      ∧ (∀ oid', oid' ≠ oid → findOrder store' oid' = findOrder store oid')
      ∧ (∀ a0, a0 = (findRest rt.restaurants o.restaurant).getD ⟨0, 0⟩ →
          findRest rt'.restaurants o.restaurant
            = some { rating_sum := a0.rating_sum + rf
                     rating_count := a0.rating_count + 1 })
      ∧ (∀ name, name ≠ o.restaurant →
          findRest rt'.restaurants name = findRest rt.restaurants name)
      ∧ (∀ d, o.driver = some d → d ≠ "" →
          ∀ b0, b0 = (findDriver rt.drivers d).getD ⟨0, 0, 0, 0⟩ →
            findDriver rt'.drivers d
              = some { rating_sum := b0.rating_sum + rf
                       rating_count := b0.rating_count + 1
                       speed_sum := b0.speed_sum + rs
                       service_sum := b0.service_sum + rsv })
      ∧ (o.driver = none → rt'.drivers = rt.drivers) := by
  have hsome : (findOrder store oid).isSome := by rw [hfind]; rfl
  have hf2 := findOrder_setOrder_self store oid (rateOrder o rf rs rsv) hsome
  refine ⟨setOrder store oid (rateOrder o rf rs rsv),
    applyRating rt o rf rs rsv, ?_, hf2, ?_, ?_, ?_, ?_, ?_⟩
  · simp [submitRating, hfind, hst, hnone, rateOrder]
  · intro oid' hne
    exact findOrder_setOrder_other store oid _ oid' hne
  · intro a0 ha0
    subst ha0
    rw [applyRating_restaurants]
    unfold updateRest findRest
    rw [lookupName_setdefaultUpdate_self]
    rfl
  · intro name hne
    rw [applyRating_restaurants]
    unfold updateRest findRest
    exact lookupName_setdefaultUpdate_other _ _ _ _ _ hne
  · intro d hd hdne b0 hb0
    subst hb0
    rw [applyRating_drivers_some rt o rf rs rsv d hd hdne]
    unfold updateDriver findDriver
    rw [lookupName_setdefaultUpdate_self]
    rfl
  · intro hd
    exact applyRating_drivers_none rt o rf rs rsv hd

/-- Witness for claim C5: rating the concrete completed order with
scores 5, 4, 3 updates both aggregates from the empty ratings state. -/
theorem submitRating_updates_aggregates_concrete :
    completedOrder.status = "completed" ∧ completedOrder.rating_food = none
    ∧ (1 ≤ 5 ∧ 5 ≤ 5) ∧ (1 ≤ 4 ∧ 4 ≤ 5) ∧ (1 ≤ 3 ∧ 3 ≤ 5)
    ∧ ∃ store' rt',
        submitRating storeEx2 rtEmpty 1 5 4 3 = .ok (store', rt')
        ∧ findOrder store' 1 = some (rateOrder completedOrder 5 4 3)
        ∧ (∀ oid', oid' ≠ 1 → findOrder store' oid' = findOrder storeEx2 oid')
        ∧ (∀ a0,
            a0 = (findRest rtEmpty.restaurants completedOrder.restaurant).getD ⟨0, 0⟩ →
              findRest rt'.restaurants completedOrder.restaurant
                = some { rating_sum := a0.rating_sum + 5
                         rating_count := a0.rating_count + 1 })
        ∧ (∀ name, name ≠ completedOrder.restaurant →
            findRest rt'.restaurants name = findRest rtEmpty.restaurants name)
        ∧ (∀ d, completedOrder.driver = some d → d ≠ "" →
            ∀ b0, b0 = (findDriver rtEmpty.drivers d).getD ⟨0, 0, 0, 0⟩ →
              findDriver rt'.drivers d
                = some { rating_sum := b0.rating_sum + 5
                         rating_count := b0.rating_count + 1
                         speed_sum := b0.speed_sum + 4
                         service_sum := b0.service_sum + 3 })
        ∧ (completedOrder.driver = none → rt'.drivers = rtEmpty.drivers) :=
  ⟨rfl, rfl, by omega, by omega, by omega,
    submitRating_updates_aggregates storeEx2 rtEmpty 1 5 4 3 completedOrder rfl rfl rfl
      (by omega) (by omega) (by omega)⟩

lemma charsLt_asymm : ∀ (a b : List Char), charsLt a b = true → charsLt b a = false := by
  intro a
  induction a with
  | nil =>
      intro b h
      cases b with
      | nil => simp [charsLt] at h
      | cons d ds => simp [charsLt]
  | cons c cs ih =>
      intro b h
      cases b with
      | nil => simp [charsLt] at h
      | cons d ds =>
          unfold charsLt at h ⊢
          by_cases h1 : c.toNat < d.toNat
          · have h2 : ¬ d.toNat < c.toNat := by omega
            rw [if_neg h2, if_pos h1]
          · rw [if_neg h1] at h
            by_cases h2 : d.toNat < c.toNat
            · rw [if_pos h2] at h
              simp at h
            · rw [if_neg h2] at h
              rw [if_neg h2, if_neg h1]
              exact ih ds h

lemma pyStrLt_asymm (a b : String) (h : pyStrLt a b = true) :
    pyStrLt b a = false :=
  charsLt_asymm a.data b.data h

lemma insertDesc_perm (e : ℕ × Order) (l : Store) :
    List.Perm (insertDesc e l) (e :: l) := by
  induction l with
  | nil => exact List.Perm.refl _
  | cons f rest ih =>
      unfold insertDesc
      by_cases h : pyStrLt (entryKey f) (entryKey e) = true
      · rw [if_pos h]
      · rw [if_neg h]
        exact (List.Perm.cons f ih).trans (List.Perm.swap e f rest)

lemma sortKeysDesc_perm (l : Store) : List.Perm (sortKeysDesc l) l := by
  induction l with
  | nil => exact List.Perm.refl _
  | cons e rest ih =>
      exact (insertDesc_perm e (sortKeysDesc rest)).trans (List.Perm.cons e ih)

lemma insertDesc_head (e : ℕ × Order) (l : Store) :
    (insertDesc e l).head? = some e ∨ (insertDesc e l).head? = l.head? := by
  cases l with
  | nil => left; rfl
  | cons f rest =>
      unfold insertDesc
      by_cases h : pyStrLt (entryKey f) (entryKey e) = true
      · rw [if_pos h]
        left
        rfl
      · rw [if_neg h]
        right
        rfl

lemma insertDesc_chain (e : ℕ × Order) (l : Store)
    (hl : List.Chain' keyGe l) : List.Chain' keyGe (insertDesc e l) := by
  induction l with
  | nil => simp [insertDesc]
  | cons f rest ih =>
      unfold insertDesc
      by_cases h : pyStrLt (entryKey f) (entryKey e) = true
      · rw [if_pos h]
        exact List.Chain'.cons (pyStrLt_asymm _ _ h) hl
      · rw [if_neg h]
        have hrest : List.Chain' keyGe rest := hl.tail
        have hins := ih hrest
        rw [List.chain'_cons']
        refine ⟨?_, hins⟩
        intro y hy
        rcases insertDesc_head e rest with hh | hh
        · rw [hh] at hy
          have hye : e = y := by simpa using hy
          subst hye
          show pyStrLt (entryKey f) (entryKey e) = false
          cases hb : pyStrLt (entryKey f) (entryKey e) with
          | false => rfl
          | true => exact absurd hb h
        · rw [hh] at hy
          exact (List.chain'_cons'.mp hl).1 y hy

lemma sortKeysDesc_chain (l : Store) : List.Chain' keyGe (sortKeysDesc l) := by
  induction l with
  | nil => exact List.chain'_nil
  | cons e rest ih => exact insertDesc_chain e _ ih

/-- Claim C2 (amended): listing a customer's orders returns exactly the
orders whose customer field matches (a permutation of the filtered
store), ordered by descending Python string comparison of the decimal ID
strings used as dict keys — which agrees with descending numeric order
only while all IDs have the same digit count — and not by insertion
order. -/
theorem listOrders_sorted_by_string_key (store : Store) (customer : String) :
    List.Perm (listOrdersByCustomer store customer)
        (store.filter (fun e => e.2.customer == customer))
    ∧ List.Chain' keyGe (listOrdersByCustomer store customer) :=
  ⟨sortKeysDesc_perm _, sortKeysDesc_chain _⟩

/-- Counterexample to claim C2 as stated: on a store holding orders 9
and 10 of the same customer, the listing comes out as [9, 10], which is
not descending numeric order (10 should come first). -/
theorem listOrders_not_numeric_desc :
    (listOrdersByCustomer storeNineTen "alice").map Prod.fst = [9, 10]
    ∧ ¬ List.Chain' (fun a b : ℕ => b ≤ a)
        ((listOrdersByCustomer storeNineTen "alice").map Prod.fst) := by
  have h1 : (listOrdersByCustomer storeNineTen "alice").map Prod.fst = [9, 10] := by
    decide
  refine ⟨h1, ?_⟩
  rw [h1]
  intro hch
  rcases List.chain'_cons.mp hch with ⟨hle, _⟩
  omega

end GrabApp
